import Mathlib

/-!
Verification development for the horizon control-plane server (`pkg/control`).

The Go server in `pkg/control` is shallowly embedded here: the relational
store becomes explicit lists of rows, gRPC metadata becomes an optional
list of authorization values, and each RPC handler becomes a pure function
from server state and request to a new state and a result.  Parts of the
repository that the handlers call but whose sources are not in `pkg/control`
(the `pkg/token` and `pkg/pb` helpers) are modelled from the specification
and carry a doc comment saying so.
-/

namespace Control

/-- Byte strings (ULIDs, account keys, certificate material) are modelled as
lists of naturals. -/
abbrev Bytes := List Nat

/-- Modelled from the spec: a token's role is one of HUB, MANAGE and
internal-service.  `RequestServiceToken` builds a `TokenCreator` without
assigning its role and the spec calls the resulting token an
internal-service token, so the role a `TokenCreator` carries when the
handler does not assign one is the internal-service role. -/
inductive TokenRole where
  | internalService
  | hub
  | manage
deriving DecidableEq, Repr

/-- Modelled from the spec: capability names appearing in token bodies. -/
inductive Capability where
  | access
  | connect
deriving DecidableEq, Repr

/-- Modelled from the spec: one `(capability, value)` entry of a token. -/
structure TokenCapability where
  capability : Capability
  value : String
deriving DecidableEq, Repr

/-- Modelled from the spec: the signed body of a capability token. -/
structure TokenBody where
  role : TokenRole
  accountId : Bytes
  ns : String
  capabilities : List TokenCapability
  validDuration : Nat
deriving DecidableEq, Repr

/-- Byte-wise prefix test on strings; this is the model both of SQL
`LIKE 'pat%'` matching (for patterns without wildcard characters) and of
`strings.HasPrefix`. -/
def strIsPrefixOf (p s : String) : Bool :=
  p.toList.isPrefixOf s.toList

/-- Modelled from the spec: `allow_account(ns)` is true iff the token's
namespace is a prefix of `ns` (or equal to it). -/
def TokenBody.allowAccount (tb : TokenBody) (ns : String) : Bool :=
  strIsPrefixOf tb.ns ns

/-- An account reference as carried in protobuf requests (`pb.Account`). -/
structure PbAccount where
  accountId : Bytes
  ns : String
deriving DecidableEq, Repr

/-- Modelled from the spec: an Account's key is its 16-byte opaque id. -/
def PbAccount.key (a : PbAccount) : Bytes :=
  a.accountId

/-- Modelled from the spec: the account a validated token speaks for,
carrying the token body's account id and namespace
(`caller.Account()` in the source). -/
def TokenBody.account (tb : TokenBody) : PbAccount :=
  ⟨tb.accountId, tb.ns⟩

/-- A value of the `authorization` metadata entry: either an arbitrary raw
string (the shared register token is such a string, and any string that is
not a well-formed signed envelope is malformed as a token), or a signed
token envelope carrying a body and the id of the key that signed it. -/
inductive AuthValue where
  | raw (s : String)
  | signed (body : TokenBody) (key : Nat)
deriving DecidableEq, Repr

/-- Request metadata: `none` when `metadata.FromIncomingContext` reports no
metadata; otherwise the list of values under the `authorization` key. -/
structure Ctx where
  metadata : Option (List AuthValue)
deriving DecidableEq, Repr

/-- Errors surfaced by the handlers.  `multi` is the go-multierror
composite built by `HubDisconnect`; its elements are the store-failure
codes that were accumulated. -/
inductive CtrlError where
  | badAuthentication
  | invalidRequest
  | namespaceInUse
  | stream (code : Nat)
  | store (code : Nat)
  | multi (codes : List Nat)
deriving DecidableEq, Repr

/-- Modelled from the spec: `verify(bearer, expected_pub)` checks the
signature and returns the parsed body; a missing or malformed bearer or a
wrong signature yields the bad-authentication error. -/
def checkTokenED25519 (av : AuthValue) (pubKey : Nat) : Except CtrlError TokenBody :=
  match av with
  | .raw _ => .error .badAuthentication
  | .signed body key =>
      if key = pubKey then .ok body else .error .badAuthentication

/-- Modelled from the spec: `sign(body)` serialises the body
deterministically and signs it, so the minted token's body is exactly the
creator's fields; the role defaults to the internal-service role when the
handler does not assign one. -/
structure TokenCreator where
  role : TokenRole := .internalService
  accountId : Bytes := []
  accountNamespace : String := ""
  capabilities : List TokenCapability := []
  rawCapabilities : List TokenCapability := []
  validDuration : Nat := 0
deriving DecidableEq, Repr

/-- Modelled from the spec: the body of the token minted by a
`TokenCreator` (the `Capabilities` map and `RawCapabilities` list both
land in the body's capability set). -/
def TokenCreator.encode (tc : TokenCreator) : TokenBody :=
  ⟨tc.role, tc.accountId, tc.accountNamespace,
    tc.capabilities ++ tc.rawCapabilities, tc.validDuration⟩

/-- Modelled from the spec: the distinguished internal account id
(`pb.InternalAccount`). -/
def internalAccount : Bytes :=
  List.replicate 16 0

/-- Row of the `accounts` table. -/
structure AccountRow where
  id : Bytes
  ns : String
deriving DecidableEq, Repr

/-- Row of the `services` table. -/
structure ServiceRow where
  serviceId : Bytes
  hubId : Bytes
  accountId : Bytes
  svcType : String
  description : String
  labels : List String
deriving DecidableEq, Repr

/-- Row of the `hubs` table.  Timestamps managed implicitly by the ORM
(`created_at`) are not modelled; `lastCheckin` is, because the handlers
assign it. -/
structure HubRow where
  stableId : Bytes
  instanceId : Bytes
  connectionInfo : List String
  lastCheckin : Nat
deriving DecidableEq, Repr

/-- Row of the `label_links` table. -/
structure LabelLinkRow where
  accountId : Bytes
  labels : String
  target : String
deriving DecidableEq, Repr

/-- Row of the `management_clients` table. -/
structure ManagementClient where
  id : Bytes
  ns : String
deriving DecidableEq, Repr

/-- The relational store. -/
structure DB where
  accounts : List AccountRow
  services : List ServiceRow
  hubs : List HubRow
  labelLinks : List LabelLinkRow
  mgmtClients : List ManagementClient
deriving DecidableEq, Repr

/-- One `pb.ServiceRoute` of a broadcast delta. -/
structure ServiceRoute where
  hub : Bytes
  id : Bytes
  svcType : String
  labels : List String
deriving DecidableEq, Repr

/-- One `pb.AccountServices` entry of a broadcast delta. -/
structure AccountServices where
  account : PbAccount
  services : List ServiceRoute
deriving DecidableEq, Repr

/-- One `pb.LabelLink` of a broadcast delta. -/
structure PbLabelLink where
  account : PbAccount
  labels : List String
  target : List String
deriving DecidableEq, Repr

/-- The `pb.CentralActivity` delta fanned out to connected hubs. -/
structure CentralActivity where
  accountServices : List AccountServices
  newLabelLinks : List PbLabelLink
deriving DecidableEq, Repr

/-- The server: static configuration, the store, and the session registry
(`connectedHubs`); a session is its fingerprint key together with the
sequence of deltas delivered on its outbound queue. -/
structure Server where
  pubKey : Nat
  registerToken : String
  hubCert : Bytes := []
  hubKey : Bytes := []
  s3AccessKey : String := ""
  s3SecretKey : String := ""
  bucket : String := ""
  db : DB
  connectedHubs : List (String × List CentralActivity)
deriving DecidableEq, Repr

/-- `broadcastActivity`: deliver a delta to every currently connected
session (each send races the caller's context in the source; the model
records the delivered deltas in order). -/
def broadcastActivity (s : Server) (act : CentralActivity) : Server :=
  { s with connectedHubs := s.connectedHubs.map (fun p => (p.1, p.2 ++ [act])) }

/-- `checkFromHub`: metadata must be present, carry an authorization
entry whose first value verifies against the server key, and the body's
role must be HUB. -/
def checkFromHub (s : Server) (ctx : Ctx) : Except CtrlError TokenBody :=
  match ctx.metadata with
  | none => .error .badAuthentication
  | some auth =>
    match auth with
    | [] => .error .badAuthentication
    | a :: _ =>
      match checkTokenED25519 a s.pubKey with
      | .error e => .error e
      | .ok tb =>
          if tb.role = .hub then .ok tb
          else .error .badAuthentication

/-- `checkMgmtAllowed`: same as `checkFromHub` with the MANAGE role. -/
def checkMgmtAllowed (s : Server) (ctx : Ctx) : Except CtrlError TokenBody :=
  match ctx.metadata with
  | none => .error .badAuthentication
  | some auth =>
    match auth with
    | [] => .error .badAuthentication
    | a :: _ =>
      match checkTokenED25519 a s.pubKey with
      | .error e => .error e
      | .ok tb =>
          if tb.role = .manage then .ok tb
          else .error .badAuthentication

/-- Modelled from the spec: canonical label flattening sorts the label set
and joins it with a delimiter, so equality tests work on one column
(`FlattenLabels` lives outside the sources provided under `pkg/control`). -/
def labelLe (a b : String) : Bool :=
  go a.toList b.toList
where
  go : List Char → List Char → Bool
    | [], _ => true
    | _ :: _, [] => false
    | c :: cs, d :: ds => if c = d then go cs ds else decide (c.val ≤ d.val)

/-- Insert a label into an already sorted list of labels. -/
def insertSorted (x : String) : List String → List String
  | [] => [x]
  | y :: ys => if labelLe x y then x :: y :: ys else y :: insertSorted x ys

/-- Sort a label set into its canonical order. -/
def sortLabels : List String → List String
  | [] => []
  | x :: xs => insertSorted x (sortLabels xs)

/-- Modelled from the spec: the canonical flattened form of a label set. -/
def FlattenLabels (ls : List String) : String :=
  String.intercalate "," (sortLabels ls)

/-- Upsert on the `accounts` table with conflict key `id`: on conflict the
namespace is overwritten (`ON CONFLICT (id) DO UPDATE SET namespace`). -/
def upsertAccount (db : DB) (a : AccountRow) : DB :=
  if db.accounts.any (fun r => r.id == a.id) then
    { db with
      accounts := db.accounts.map
        (fun r => if r.id == a.id then { r with ns := a.ns } else r) }
  else
    { db with accounts := db.accounts ++ [a] }

/-- The `pb.ServiceRequest` message. -/
structure ServiceRequest where
  account : PbAccount
  hub : Bytes
  id : Bytes
  svcType : String
  labels : List String
deriving DecidableEq, Repr

/-- Injectable store failures for the hub cleanup steps; a `none` field
means the corresponding statement succeeds. -/
structure FailEnv where
  findServicesErr : Option Nat := none
  deleteServicesErr : Option Nat := none
  deleteHubErr : Option Nat := none
deriving DecidableEq, Repr

/-- The environment in which every store statement succeeds. -/
def noFail : FailEnv := {}

/-- `removeHubServices`: look up the services of the instance, delete them,
then re-materialize routing for each affected account
(`updateAccountRouting` lives outside the modelled tables and has no
effect on them). -/
def removeHubServices (env : FailEnv) (db : DB) (hubId : Bytes) : DB × Option Nat :=
  match env.findServicesErr with
  | some c => (db, some c)
  | none =>
    match env.deleteServicesErr with
    | some c => (db, some c)
    | none =>
      ({ db with services := db.services.filter (fun so => !(so.hubId == hubId)) }, none)

/-- `AddService`: authenticate as a hub, insert the Service row, broadcast
the route delta, then re-materialize the account's routing
(`updateAccountRouting` has no effect on the modelled tables). -/
def AddService (s : Server) (ctx : Ctx) (req : ServiceRequest) :
    Server × Except CtrlError Unit :=
  match checkFromHub s ctx with
  | .error e => (s, .error e)
  | .ok _ =>
    let so : ServiceRow := ⟨req.id, req.hub, req.account.key, req.svcType, "", req.labels⟩
    let s := { s with db := { s.db with services := s.db.services ++ [so] } }
    let s := broadcastActivity s
      ⟨[⟨req.account, [⟨req.hub, req.id, req.svcType, req.labels⟩]⟩], []⟩
    (s, .ok ())

/-- `RemoveService`: authenticate as a hub, delete every Service row whose
`service_id` matches the request, then re-materialize the account's
routing. -/
def RemoveService (s : Server) (ctx : Ctx) (req : ServiceRequest) :
    Server × Except CtrlError Unit :=
  match checkFromHub s ctx with
  | .error e => (s, .error e)
  | .ok _ =>
    let newServices := s.db.services.filter (fun so => !(so.serviceId == req.id))
    let s := { s with db := { s.db with services := newServices } }
    (s, .ok ())

/-- The `pb.ConfigRequest` message. -/
structure ConfigRequest where
  stableId : Bytes
  instanceId : Bytes
  locations : List String
deriving DecidableEq, Repr

/-- The `pb.ConfigResponse` message. -/
structure ConfigResponse where
  tlsKey : Bytes
  tlsCert : Bytes
  tokenPub : Nat
  s3AccessKey : String
  s3SecretKey : String
  s3Bucket : String
deriving DecidableEq, Repr

/-- The response `FetchConfig` assembles from the server configuration. -/
def configResponse (s : Server) : ConfigResponse :=
  ⟨s.hubKey, s.hubCert, s.pubKey, s.s3AccessKey, s.s3SecretKey, s.bucket⟩

/-- The `SELECT ... WHERE stable_id = ? FOR UPDATE` lookup on `hubs`. -/
def findHub (hubs : List HubRow) (sid : Bytes) : Option HubRow :=
  hubs.find? (fun h => h.stableId == sid)

/-- The `Updates` statement of `FetchConfig`: rows whose `stable_id`
matches get fresh connection info, instance id and checkin time. -/
def updHub (sid : Bytes) (data : List String) (iid : Bytes) (now : Nat) (h : HubRow) :
    HubRow :=
  if h.stableId == sid then
    { h with connectionInfo := data, instanceId := iid, lastCheckin := now }
  else h

/-- `FetchConfig`: authenticate as a hub; in one transaction, insert the
Hub row if absent, otherwise delete the services of the previous instance
when the instance id rotated and refresh the row; reply with the TLS
bundle, token public key and object-store credentials.  A failure inside
the transaction rolls it back and surfaces a store error. -/
def FetchConfig (s : Server) (env : FailEnv) (ctx : Ctx) (req : ConfigRequest) (now : Nat) :
    Server × Except CtrlError ConfigResponse :=
  match checkFromHub s ctx with
  | .error e => (s, .error e)
  | .ok _ =>
    match findHub s.db.hubs req.stableId with
    | none =>
      let hr : HubRow := ⟨req.stableId, req.instanceId, req.locations, now⟩
      ({ s with db := { s.db with hubs := s.db.hubs ++ [hr] } }, .ok (configResponse s))
    | some hr =>
      let cleaned : Except Nat DB :=
        if req.instanceId == hr.instanceId then .ok s.db
        else
          match removeHubServices env s.db hr.instanceId with
          | (_, some c) => .error c
          | (db1, none) => .ok db1
      match cleaned with
      | .error c => (s, .error (.store c))
      | .ok db1 =>
        let hubs2 := db1.hubs.map (updHub req.stableId req.locations req.instanceId now)
        let db2 := { db1 with hubs := hubs2 }
        ({ s with db := db2 }, .ok (configResponse s))

/-- The `pb.HubDisconnectRequest` message. -/
structure HubDisconnectRequest where
  stableId : Bytes
  instanceId : Bytes
deriving DecidableEq, Repr

/-- The `Delete(&Hub{})` statement of `HubDisconnect`. -/
def deleteHubRow (env : FailEnv) (db : DB) (sid : Bytes) : DB × Option Nat :=
  match env.deleteHubErr with
  | some c => (db, some c)
  | none => ({ db with hubs := db.hubs.filter (fun h => !(h.stableId == sid)) }, none)

/-- `multierror.Append`: fold a possibly-nil error and a possibly-nil new
error into one composite, skipping nil members. -/
def multiAppend (err : Option CtrlError) (serr : Option Nat) : CtrlError :=
  let es : List Nat :=
    match err with
    | some (.multi es) => es
    | some (.store c) => [c]
    | some _ => []
    | none => []
  match serr with
  | some c => .multi (es ++ [c])
  | none => .multi es

/-- `HubDisconnect`: authenticate as a hub, remove the instance's services,
then delete the Hub row, returning `Noop` together with the accumulated
error.  The accumulation mirrors the source exactly: after the first
cleanup step the code tests the prior `err` variable (which is nil at that
point) rather than the fresh `serr`, so the first step's error is only
appended when `err` was already non-nil. -/
def HubDisconnect (s : Server) (env : FailEnv) (ctx : Ctx) (req : HubDisconnectRequest) :
    Server × Option CtrlError :=
  match checkFromHub s ctx with
  | .error e => (s, some e)
  | .ok _ =>
    let err : Option CtrlError := none
    let step1 := removeHubServices env s.db req.instanceId
    let err := if err.isSome then some (multiAppend err step1.2) else err
    let step2 := deleteHubRow env step1.1 req.stableId
    let err := if step2.2.isSome then some (multiAppend err step2.2) else err
    ({ s with db := step2.1 }, err)

/-- The `pb.ControlRegister` message. -/
structure ControlRegister where
  ns : String
deriving DecidableEq, Repr

/-- `Register`: the authorization value must equal the shared register
token; then the handler refuses when some ManagementClient row's namespace
matches `LIKE req+'%'` (the requested namespace is a byte prefix of the
stored one), and otherwise inserts a fresh row and mints a MANAGE token
whose ACCESS capability is the namespace. -/
def Register (s : Server) (ctx : Ctx) (reg : ControlRegister) (newId : Bytes) :
    Server × Except CtrlError TokenBody :=
  match ctx.metadata with
  | none => (s, .error .badAuthentication)
  | some auth =>
    match auth with
    | [] => (s, .error .badAuthentication)
    | a :: _ =>
      if a = .raw s.registerToken then
        match s.db.mgmtClients.find? (fun mc => strIsPrefixOf reg.ns mc.ns) with
        | some _ => (s, .error .namespaceInUse)
        | none =>
          let mc : ManagementClient := ⟨newId, reg.ns⟩
          let db := { s.db with mgmtClients := s.db.mgmtClients ++ [mc] }
          let tc : TokenCreator := { role := .manage, capabilities := [⟨.access, reg.ns⟩] }
          ({ s with db := db }, .ok tc.encode)
      else (s, .error .badAuthentication)

/-- The `pb.CreateTokenRequest` message. -/
structure CreateTokenRequest where
  account : PbAccount
  capabilities : List TokenCapability
  validDuration : Option Nat
deriving DecidableEq, Repr

/-- `CreateToken`: authenticate as MANAGE; the caller's namespace must
allow the requested account namespace and the namespace of every requested
ACCESS capability; upsert the account row; mint a token carrying the
requested account, namespace, capability list and duration (the handler
assigns no role to the creator). -/
def CreateToken (s : Server) (ctx : Ctx) (req : CreateTokenRequest) :
    Server × Except CtrlError TokenBody :=
  match checkMgmtAllowed s ctx with
  | .error e => (s, .error e)
  | .ok caller =>
    if !(caller.allowAccount req.account.ns) then
      (s, .error .invalidRequest)
    else if req.capabilities.any
        (fun cb => cb.capability == .access && !(caller.allowAccount cb.value)) then
      (s, .error .invalidRequest)
    else
      let dur := req.validDuration.getD 0
      let ao : AccountRow := ⟨req.account.key, req.account.ns⟩
      let db := upsertAccount s.db ao
      let tc : TokenCreator :=
        { accountId := req.account.accountId, accountNamespace := req.account.ns,
          rawCapabilities := req.capabilities, validDuration := dur }
      ({ s with db := db }, .ok tc.encode)

/-- The `pb.AddLabelLinkRequest` message. -/
structure AddLabelLinkRequest where
  account : PbAccount
  labels : List String
  target : List String
deriving DecidableEq, Repr

/-- `AddLabelLink`: authenticate as MANAGE; an empty request namespace is
replaced by the caller's own namespace before the `AllowAccount` check;
upsert the account row, insert the link under the canonical flattened
labels, broadcast the new link to every session, then refresh the
materialized label links (`updateLabelLinks` has no effect on the modelled
tables or sessions). -/
def AddLabelLink (s : Server) (ctx : Ctx) (req : AddLabelLinkRequest) :
    Server × Except CtrlError Unit :=
  match checkMgmtAllowed s ctx with
  | .error e => (s, .error e)
  | .ok caller =>
    let acct := if req.account.ns = "" then { req.account with ns := caller.account.ns }
                else req.account
    if !(caller.allowAccount acct.ns) then
      (s, .error .invalidRequest)
    else
      let ao : AccountRow := ⟨acct.key, acct.ns⟩
      let db := upsertAccount s.db ao
      let llr : LabelLinkRow := ⟨acct.key, FlattenLabels req.labels, FlattenLabels req.target⟩
      let db := { db with labelLinks := db.labelLinks ++ [llr] }
      let s := { s with db := db }
      let s := broadcastActivity s ⟨[], [⟨acct, req.labels, req.target⟩]⟩
      (s, .ok ())

/-- The `pb.RemoveLabelLinkRequest` message. -/
structure RemoveLabelLinkRequest where
  account : PbAccount
  labels : List String
deriving DecidableEq, Repr

/-- `RemoveLabelLink`: authenticate as MANAGE and check `AllowAccount` on
the request namespace; delete the link rows keyed by the account key and
the canonical flattened labels, then refresh the materialized label links
(`updateLabelLinks` has no effect on the modelled tables or sessions; this
handler upserts no account row and calls no broadcast). -/
def RemoveLabelLink (s : Server) (ctx : Ctx) (req : RemoveLabelLinkRequest) :
    Server × Except CtrlError Unit :=
  match checkMgmtAllowed s ctx with
  | .error e => (s, .error e)
  | .ok caller =>
    if !(caller.allowAccount req.account.ns) then
      (s, .error .invalidRequest)
    else
      let key := req.account.key
      let fl := FlattenLabels req.labels
      let kept := s.db.labelLinks.filter (fun l => !(l.accountId == key && l.labels == fl))
      let db := { s.db with labelLinks := kept }
      ({ s with db := db }, .ok ())

/-- One entry of the `pb.ListOfHubs` response. -/
structure HubInfo where
  id : Bytes
  locations : List String
deriving DecidableEq, Repr

/-- `AllHubs`: read every Hub row and return its instance id and decoded
connection info.  The handler performs no authentication check. -/
def AllHubs (s : Server) (_ctx : Ctx) : Except CtrlError (List HubInfo) :=
  .ok (s.db.hubs.map (fun h => ⟨h.instanceId, h.connectionInfo⟩))

/-- `SyncHub`: a stub returning no response and no error for any caller;
it performs no authentication check. -/
def SyncHub (_s : Server) (_ctx : Ctx) : Option Unit × Option CtrlError :=
  (none, none)

/-- `RequestServiceToken`: authenticate as a hub; mint a token for the
internal account over the requested namespace with ACCESS on that
namespace and CONNECT (the handler assigns no role to the creator). -/
def RequestServiceToken (s : Server) (ctx : Ctx) (ns : String) :
    Except CtrlError TokenBody :=
  match checkFromHub s ctx with
  | .error e => .error e
  | .ok _ =>
    let tc : TokenCreator :=
      { accountId := internalAccount, accountNamespace := ns,
        rawCapabilities := [⟨.access, ns⟩, ⟨.connect, ""⟩] }
    .ok tc.encode

/-- The first client frame of a `StreamActivity` session: either the
registration frame carrying the hub's fingerprint key, or a flow batch
(whose `HubReg` field is nil). -/
inductive StreamFrame where
  | hubReg (key : String)
  | flow (records : List Nat)
deriving DecidableEq, Repr

/-- Install a session under `key` in the registry (map assignment:
replaces an existing entry, appends otherwise). -/
def registerSession (hubs : List (String × List CentralActivity)) (key : String) :
    List (String × List CentralActivity) :=
  if hubs.any (fun p => p.1 == key) then
    hubs.map (fun p => if p.1 == key then (key, []) else p)
  else hubs ++ [(key, [])]

/-- The sequential head of `StreamActivity`: authenticate as a hub,
receive the first frame, close the stream without error when it is not a
registration frame, and otherwise install the session in the registry. -/
def streamActivitySetup (s : Server) (ctx : Ctx) (firstRecv : Except Nat StreamFrame) :
    Server × Option CtrlError :=
  match checkFromHub s ctx with
  | .error e => (s, some e)
  | .ok _ =>
    match firstRecv with
    | .error c => (s, some (.stream c))
    | .ok (.flow _) => (s, none)
    | .ok (.hubReg key) =>
        ({ s with connectedHubs := registerSession s.connectedHubs key }, none)

/-- One iteration of the deferred teardown's drain loop over the session's
outbound queue: when a pending send is available the first select case
fires and consumes it; otherwise the default case fires.  The returned
flag says whether the loop continues; neither arm of the select in the
source leaves the loop, so the flag is true on both paths. -/
def drainSelect (q : List CentralActivity) : List CentralActivity × Bool :=
  match q with
  | _ :: rest => (rest, true)
  | [] => ([], true)

/-- Run the teardown drain loop for at most `fuel` iterations; `none`
means the loop was still running when the fuel ran out, `some q` means it
exited with the remaining queue `q`. -/
def drainLoopRun : Nat → List CentralActivity → Option (List CentralActivity)
  | 0, _ => none
  | Nat.succ n, q =>
    match drainSelect q with
    | (q2, true) => drainLoopRun n q2
    | (q2, false) => some q2

/-- The deferred teardown of a `StreamActivity` session: remove the
session from the registry under the write lock, then run the drain loop;
the second component reports whether (and with what queue) the drain loop
finished within `fuel` iterations. -/
def teardown (s : Server) (key : String) (fuel : Nat) (q : List CentralActivity) :
    Server × Option (List CentralActivity) :=
  ({ s with connectedHubs := s.connectedHubs.filter (fun p => !(p.1 == key)) },
    drainLoopRun fuel q)

/-! ### Helper lemmas -/

theorem strIsPrefixOf_self (s : String) : strIsPrefixOf s s = true := by
  simp [strIsPrefixOf, List.isPrefixOf_iff_prefix]

/-- The ways a request context can fail the bearer check for a required
role: missing metadata, no authorization entry, a malformed bearer, a
wrongly-signed bearer, or a token of the wrong role. -/
def badCtx (pubKey : Nat) (required : TokenRole) (ctx : Ctx) : Prop :=
  ctx.metadata = none ∨ ctx.metadata = some [] ∨
  (∃ v rest, ctx.metadata = some (.raw v :: rest)) ∨
  (∃ body key rest, ctx.metadata = some (.signed body key :: rest) ∧ key ≠ pubKey) ∨
  (∃ body rest, ctx.metadata = some (.signed body pubKey :: rest) ∧ body.role ≠ required)

theorem checkFromHub_of_badCtx (s : Server) (ctx : Ctx)
    (h : badCtx s.pubKey .hub ctx) :
    checkFromHub s ctx = .error .badAuthentication := by
  rcases h with h | h | ⟨v, rest, h⟩ | ⟨body, key, rest, h, hk⟩ | ⟨body, rest, h, hr⟩
  · simp [checkFromHub, h]
  · simp [checkFromHub, h]
  · simp [checkFromHub, checkTokenED25519, h]
  · simp [checkFromHub, checkTokenED25519, h, hk]
  · simp [checkFromHub, checkTokenED25519, h, hr]

theorem checkMgmtAllowed_of_badCtx (s : Server) (ctx : Ctx)
    (h : badCtx s.pubKey .manage ctx) :
    checkMgmtAllowed s ctx = .error .badAuthentication := by
  rcases h with h | h | ⟨v, rest, h⟩ | ⟨body, key, rest, h, hk⟩ | ⟨body, rest, h, hr⟩
  · simp [checkMgmtAllowed, h]
  · simp [checkMgmtAllowed, h]
  · simp [checkMgmtAllowed, checkTokenED25519, h]
  · simp [checkMgmtAllowed, checkTokenED25519, h, hk]
  · simp [checkMgmtAllowed, checkTokenED25519, h, hr]

theorem updHub_stableId (sid : Bytes) (d : List String) (i : Bytes) (n : Nat) (h : HubRow) :
    (updHub sid d i n h).stableId = h.stableId := by
  unfold updHub
  split <;> rfl

theorem findHub_append_of_none (l1 l2 : List HubRow) (sid : Bytes)
    (h : findHub l1 sid = none) : findHub (l1 ++ l2) sid = findHub l2 sid := by
  unfold findHub at *
  rw [List.find?_append, h, Option.none_or]

theorem findHub_map_upd (l : List HubRow) (sid : Bytes) (d : List String) (i : Bytes)
    (n : Nat) :
    findHub (l.map (updHub sid d i n)) sid = (findHub l sid).map (updHub sid d i n) := by
  induction l with
  | nil => rfl
  | cons x xs ih =>
    have hs : (updHub sid d i n x).stableId = x.stableId := updHub_stableId sid d i n x
    by_cases hx : (x.stableId == sid) = true
    · simp [findHub, List.find?_cons, hs, hx]
    · simp only [findHub, List.map_cons, List.find?_cons, hs, hx] at ih ⊢
      simpa [hx] using ih

theorem filter_hub_filter_not (l : List ServiceRow) (b : Bytes) :
    ((l.filter (fun so => !(so.hubId == b))).filter (fun so => so.hubId == b)) = [] := by
  induction l with
  | nil => rfl
  | cons x xs ih =>
    by_cases hx : (x.hubId == b) = true <;>
      simp [List.filter_cons, hx, ih]

/-! ### Witness fixtures -/

/-- A hub-role token body used by concrete witnesses. -/
def tbHubW : TokenBody := ⟨.hub, [1], "", [], 0⟩

/-- A manage-role token body for namespace `org/team`. -/
def tbMgW : TokenBody := ⟨.manage, [2], "org/team", [], 0⟩

/-- A context carrying `tbHubW` signed with key 1. -/
def ctxHubW : Ctx := ⟨some [.signed tbHubW 1]⟩

/-- A context carrying `tbMgW` signed with key 1. -/
def ctxMgW : Ctx := ⟨some [.signed tbMgW 1]⟩

/-- A store with one service on hub instance `[5]` and one Hub row. -/
def dbW : DB := ⟨[], [⟨[7], [5], [3], "http", "", ["env=prod"]⟩],
  [⟨[9], [5], ["loc1"], 0⟩], [], []⟩

/-- A server with public key 1, the store `dbW` and one connected session. -/
def stW : Server :=
  { pubKey := 1, registerToken := "reg", db := dbW, connectedHubs := [("h1", [])] }

/-- A server whose ManagementClient table holds namespace `a/b`. -/
def stRegW : Server :=
  { pubKey := 1, registerToken := "reg",
    db := ⟨[], [], [], [], [⟨[1], "a/b"⟩]⟩, connectedHubs := [] }

/-! ### Claims -/

/-- C1 (amended): every RPC that authenticates — AddService, RemoveService,
FetchConfig, HubDisconnect, RequestServiceToken and StreamActivity under
the HUB check, AddLabelLink, RemoveLabelLink and CreateToken under the
MANAGE check — returns the bad-authentication error and performs no effect
when the request metadata is missing, carries no authorization entry,
carries a malformed or wrongly-signed bearer, or carries a token of the
wrong role.  AllHubs and SyncHub perform no authentication check at all
(see the counterexample). -/
theorem C1_auth_gating (s : Server) (env : FailEnv) (ctx ctx2 : Ctx)
    (hhub : badCtx s.pubKey .hub ctx) (hmg : badCtx s.pubKey .manage ctx2) :
    (∀ req, AddService s ctx req = (s, .error .badAuthentication)) ∧
    (∀ req, RemoveService s ctx req = (s, .error .badAuthentication)) ∧
    (∀ req now, FetchConfig s env ctx req now = (s, .error .badAuthentication)) ∧
    (∀ req, HubDisconnect s env ctx req = (s, some .badAuthentication)) ∧
    (∀ ns, RequestServiceToken s ctx ns = .error .badAuthentication) ∧
    (∀ fr, streamActivitySetup s ctx fr = (s, some .badAuthentication)) ∧
    (∀ req, AddLabelLink s ctx2 req = (s, .error .badAuthentication)) ∧
    (∀ req, RemoveLabelLink s ctx2 req = (s, .error .badAuthentication)) ∧
    (∀ req, CreateToken s ctx2 req = (s, .error .badAuthentication)) := by
  have h1 := checkFromHub_of_badCtx s ctx hhub
  have h2 := checkMgmtAllowed_of_badCtx s ctx2 hmg
  refine ⟨fun req => ?_, fun req => ?_, fun req now => ?_, fun req => ?_, fun ns => ?_,
      fun fr => ?_, fun req => ?_, fun req => ?_, fun req => ?_⟩ <;>
    simp [AddService, RemoveService, FetchConfig, HubDisconnect, RequestServiceToken,
      streamActivitySetup, AddLabelLink, RemoveLabelLink, CreateToken, h1, h2]

/-- Witness for C1 at a concrete bad context (missing metadata). -/
theorem C1_auth_gating_witness :
    AddService stW ⟨none⟩ ⟨⟨[2], "org/team"⟩, [5], [7], "http", ["env=prod"]⟩ =
      (stW, .error .badAuthentication) ∧
    CreateToken stW ⟨none⟩ ⟨⟨[2], "org/team"⟩, [], none⟩ =
      (stW, .error .badAuthentication) :=
  ⟨(C1_auth_gating stW noFail ⟨none⟩ ⟨none⟩ (Or.inl rfl) (Or.inl rfl)).1 _,
    (C1_auth_gating stW noFail ⟨none⟩ ⟨none⟩ (Or.inl rfl) (Or.inl rfl)).2.2.2.2.2.2.2.2 _⟩

/-- C1 counterexample: with missing request metadata, AllHubs still
returns the hub snapshot (not the bad-authentication error) and SyncHub
still returns success, so the claim's gating fails for these two RPCs. -/
theorem C1_counterexample :
    AllHubs stW ⟨none⟩ = .ok [⟨[5], ["loc1"]⟩] ∧
    AllHubs stW ⟨none⟩ ≠ .error .badAuthentication ∧
    SyncHub stW ⟨none⟩ = (none, none) := by
  refine ⟨rfl, ?_, rfl⟩
  intro h
  rw [show AllHubs stW ⟨none⟩ = .ok [⟨[5], ["loc1"]⟩] from rfl] at h
  exact Except.noConfusion h

/-- C2: the claim is right and the code is wrong.  When the removal of the
instance's services fails and the deletion of the Hub row succeeds,
`HubDisconnect` returns no error at all: the accumulator guard after the
service-removal step tests the prior `err` variable (nil at that point)
instead of the fresh `serr`, so the service-deletion cause is dropped.
Evaluated at a concrete failing input: the service-removal step fails with
store error 7, the hub row is deleted, the services survive, and the
returned error is `none` rather than a composite containing 7. -/
theorem C2_hubDisconnect_drops_service_error :
    (HubDisconnect stW ⟨none, some 7, none⟩ ctxHubW ⟨[9], [5]⟩).2 = none ∧
    (HubDisconnect stW ⟨none, some 7, none⟩ ctxHubW ⟨[9], [5]⟩).1.db.hubs = [] ∧
    (HubDisconnect stW ⟨none, some 7, none⟩ ctxHubW ⟨[9], [5]⟩).1.db.services =
      stW.db.services :=
  ⟨rfl, rfl, rfl⟩

/-- C4: the claim is right and the code is wrong.  The teardown does
remove the session from the registry, and each iteration of its drain is
non-blocking, but the drain loop never terminates: neither arm of the
select leaves the loop, so for every fuel bound and every queue the loop
is still running and the session handler never returns. -/
theorem C4_teardown_drain_never_finishes (s : Server) (key : String) (fuel : Nat)
    (q : List CentralActivity) :
    (teardown s key fuel q).2 = none ∧
    (teardown s key fuel q).1.connectedHubs =
      s.connectedHubs.filter (fun p => !(p.1 == key)) := by
  refine ⟨?_, rfl⟩
  show drainLoopRun fuel q = none
  induction fuel generalizing q with
  | zero => rfl
  | succ n ih => cases q <;> simp [drainLoopRun, drainSelect, ih]

/-- C5 counterexample: with the existing ManagementClient namespace `a/b`
being a prefix of the requested namespace `a/b/c`, the claim says Register
must fail with namespace-already-in-use; the code instead creates the
record and succeeds, because its `LIKE` test checks the reverse
direction. -/
theorem C5_register_counterexample :
    strIsPrefixOf "a/b" "a/b/c" = true ∧
    (Register stRegW ⟨some [.raw "reg"]⟩ ⟨"a/b/c"⟩ [4]).2 ≠ .error .namespaceInUse ∧
    (Register stRegW ⟨some [.raw "reg"]⟩ ⟨"a/b/c"⟩ [4]).1.db.mgmtClients =
      [⟨[1], "a/b"⟩, ⟨[4], "a/b/c"⟩] := by
  refine ⟨by decide, ?_, rfl⟩
  intro h
  rw [show (Register stRegW ⟨some [.raw "reg"]⟩ ⟨"a/b/c"⟩ [4]).2 =
      .ok ⟨.manage, [], "", [⟨.access, "a/b/c"⟩], 0⟩ from rfl] at h
  exact Except.noConfusion h

/-- C5 (amended): with the shared register token presented, `Register(N)`
fails with namespace-already-in-use whenever the requested namespace `N`
is a prefix of some existing ManagementClient's namespace (the reverse
direction of the claim), and otherwise creates a record with namespace `N`
and mints a MANAGE token with ACCESS on `N`. -/
theorem C5_register_like_direction (s : Server) (ctx : Ctx) (N : String) (newId : Bytes)
    (hauth : ∃ rest, ctx.metadata = some (.raw s.registerToken :: rest)) :
    ((∃ mc ∈ s.db.mgmtClients, strIsPrefixOf N mc.ns = true) →
      Register s ctx ⟨N⟩ newId = (s, .error .namespaceInUse)) ∧
    ((∀ mc ∈ s.db.mgmtClients, strIsPrefixOf N mc.ns = false) →
      (Register s ctx ⟨N⟩ newId).1.db.mgmtClients = s.db.mgmtClients ++ [⟨newId, N⟩] ∧
      (Register s ctx ⟨N⟩ newId).2 = .ok ⟨.manage, [], "", [⟨.access, N⟩], 0⟩) := by
  obtain ⟨rest, hmd⟩ := hauth
  constructor
  · rintro ⟨mc, hmem, hp⟩
    rcases hfind : s.db.mgmtClients.find? (fun mc => strIsPrefixOf N mc.ns) with _ | mc2
    · exact absurd hp (by simpa using List.find?_eq_none.mp hfind mc hmem)
    · simp [Register, hmd, hfind]
  · intro hall
    have hfind : s.db.mgmtClients.find? (fun mc => strIsPrefixOf N mc.ns) = none :=
      List.find?_eq_none.mpr (fun mc hmem => by simp [hall mc hmem])
    refine ⟨?_, ?_⟩ <;> simp [Register, hmd, hfind, TokenCreator.encode]

/-- Witness for C5 at concrete inputs exercising both branches. -/
theorem C5_register_like_direction_witness :
    Register stRegW ⟨some [.raw "reg"]⟩ ⟨"a"⟩ [4] = (stRegW, .error .namespaceInUse) ∧
    (Register stRegW ⟨some [.raw "reg"]⟩ ⟨"b"⟩ [4]).1.db.mgmtClients =
      [⟨[1], "a/b"⟩, ⟨[4], "b"⟩] := by
  constructor
  · exact (C5_register_like_direction stRegW ⟨some [.raw "reg"]⟩ "a" [4] ⟨[], rfl⟩).1
      ⟨⟨[1], "a/b"⟩, by decide, by decide⟩
  · refine ((C5_register_like_direction stRegW ⟨some [.raw "reg"]⟩ "b" [4] ⟨[], rfl⟩).2 ?_).1
    intro mc hmem
    have hmc : mc = ⟨[1], "a/b"⟩ := by simpa [stRegW] using hmem
    rw [hmc]
    decide

/-- The create branch of `FetchConfig`: no Hub row under the stable id,
so one is inserted with the requested instance id and locations. -/
theorem fetchConfig_create (s : Server) (ctx : Ctx) (req : ConfigRequest) (now : Nat)
    (tb : TokenBody) (hauth : checkFromHub s ctx = .ok tb)
    (hfind : findHub s.db.hubs req.stableId = none) :
    FetchConfig s noFail ctx req now =
      ({ s with db := { s.db with
          hubs := s.db.hubs ++ [⟨req.stableId, req.instanceId, req.locations, now⟩] } },
        .ok (configResponse s)) := by
  simp [FetchConfig, hauth, hfind]

/-- The refresh branch of `FetchConfig`: a Hub row exists with the same
instance id, so only the row is refreshed. -/
theorem fetchConfig_refresh (s : Server) (ctx : Ctx) (req : ConfigRequest) (now : Nat)
    (tb : TokenBody) (hr : HubRow) (hauth : checkFromHub s ctx = .ok tb)
    (hfind : findHub s.db.hubs req.stableId = some hr)
    (hinst : (req.instanceId == hr.instanceId) = true) :
    FetchConfig s noFail ctx req now =
      ({ s with db := { s.db with
          hubs := s.db.hubs.map (updHub req.stableId req.locations req.instanceId now) } },
        .ok (configResponse s)) := by
  simp [FetchConfig, hauth, hfind, hinst]

/-- The rotation branch of `FetchConfig`: a Hub row exists with a
different instance id, so the previous instance's services are deleted
and the row is updated, in the same transaction. -/
theorem fetchConfig_rotate (s : Server) (ctx : Ctx) (req : ConfigRequest) (now : Nat)
    (tb : TokenBody) (hr : HubRow) (hauth : checkFromHub s ctx = .ok tb)
    (hfind : findHub s.db.hubs req.stableId = some hr)
    (hinst : (req.instanceId == hr.instanceId) = false) :
    FetchConfig s noFail ctx req now =
      ({ s with db := { s.db with
          services := s.db.services.filter (fun so => !(so.hubId == hr.instanceId)),
          hubs := s.db.hubs.map (updHub req.stableId req.locations req.instanceId now) } },
        .ok (configResponse s)) := by
  simp [FetchConfig, hauth, hfind, hinst, removeHubServices, noFail]

/-- After a successful `FetchConfig` the Hub row under the requested
stable id exists and carries the requested instance id. -/
theorem fetchConfig_instance (s : Server) (ctx : Ctx) (req : ConfigRequest) (now : Nat)
    (tb : TokenBody) (hauth : checkFromHub s ctx = .ok tb) :
    ∃ hr1, findHub (FetchConfig s noFail ctx req now).1.db.hubs req.stableId = some hr1 ∧
      hr1.instanceId = req.instanceId := by
  rcases hfind : findHub s.db.hubs req.stableId with _ | hr
  · refine ⟨⟨req.stableId, req.instanceId, req.locations, now⟩, ?_, rfl⟩
    rw [fetchConfig_create s ctx req now tb hauth hfind]
    rw [findHub_append_of_none _ _ _ hfind]
    simp [findHub]
  · have hfind2 : s.db.hubs.find? (fun h => h.stableId == req.stableId) = some hr := hfind
    have hpred : (hr.stableId == req.stableId) = true := by
      simpa using List.find?_some hfind2
    refine ⟨updHub req.stableId req.locations req.instanceId now hr, ?_, ?_⟩
    · by_cases hinst : (req.instanceId == hr.instanceId) = true
      · rw [fetchConfig_refresh s ctx req now tb hr hauth hfind hinst]
        rw [show ({ s with db := { s.db with
            hubs := s.db.hubs.map (updHub req.stableId req.locations req.instanceId now) } }
            : Server).db.hubs =
          s.db.hubs.map (updHub req.stableId req.locations req.instanceId now) from rfl]
        rw [findHub_map_upd, hfind]
        rfl
      · rw [fetchConfig_rotate s ctx req now tb hr hauth hfind (by simpa using hinst)]
        rw [show ({ s with db := { s.db with
            services := s.db.services.filter (fun so => !(so.hubId == hr.instanceId)),
            hubs := s.db.hubs.map (updHub req.stableId req.locations req.instanceId now) } }
            : Server).db.hubs =
          s.db.hubs.map (updHub req.stableId req.locations req.instanceId now) from rfl]
        rw [findHub_map_upd, hfind]
        rfl
    · simp [updHub, hpred]

/-- C3: `FetchConfig` implements the config_fetch contract.  With a valid
HUB token and a store that accepts every statement: if no Hub row with the
stable id exists one is inserted; if the stored instance id differs, every
Service row of the prior instance is deleted in the same transaction and
the row is updated; otherwise the row is refreshed.  Consequently, two
successive calls for the same stable id with different instance ids leave
no Service row with the first call's instance id. -/
theorem C3_fetchConfig_contract (s : Server) (ctx : Ctx) (req : ConfigRequest) (now : Nat)
    (tb : TokenBody) (hauth : checkFromHub s ctx = .ok tb) :
    (findHub s.db.hubs req.stableId = none →
      (FetchConfig s noFail ctx req now).1.db.hubs =
        s.db.hubs ++ [⟨req.stableId, req.instanceId, req.locations, now⟩] ∧
      (FetchConfig s noFail ctx req now).1.db.services = s.db.services ∧
      (FetchConfig s noFail ctx req now).2 = .ok (configResponse s)) ∧
    (∀ hr, findHub s.db.hubs req.stableId = some hr →
      (req.instanceId == hr.instanceId) = false →
      (FetchConfig s noFail ctx req now).1.db.services =
        s.db.services.filter (fun so => !(so.hubId == hr.instanceId)) ∧
      (FetchConfig s noFail ctx req now).1.db.services.filter
        (fun so => so.hubId == hr.instanceId) = [] ∧
      (FetchConfig s noFail ctx req now).1.db.hubs =
        s.db.hubs.map (updHub req.stableId req.locations req.instanceId now) ∧
      (FetchConfig s noFail ctx req now).2 = .ok (configResponse s)) ∧
    (∀ hr, findHub s.db.hubs req.stableId = some hr →
      (req.instanceId == hr.instanceId) = true →
      (FetchConfig s noFail ctx req now).1.db.services = s.db.services ∧
      (FetchConfig s noFail ctx req now).1.db.hubs =
        s.db.hubs.map (updHub req.stableId req.locations req.instanceId now) ∧
      (FetchConfig s noFail ctx req now).2 = .ok (configResponse s)) ∧
    (∀ ctx2 tb2 req2 now2,
      checkFromHub (FetchConfig s noFail ctx req now).1 ctx2 = .ok tb2 →
      req2.stableId = req.stableId → (req2.instanceId == req.instanceId) = false →
      (FetchConfig (FetchConfig s noFail ctx req now).1 noFail ctx2 req2 now2).1.db.services.filter
        (fun so => so.hubId == req.instanceId) = []) := by
  refine ⟨?_, ?_, ?_, ?_⟩
  · intro hfind
    rw [fetchConfig_create s ctx req now tb hauth hfind]
    exact ⟨rfl, rfl, rfl⟩
  · intro hr hfind hinst
    rw [fetchConfig_rotate s ctx req now tb hr hauth hfind hinst]
    exact ⟨rfl, filter_hub_filter_not _ _, rfl, rfl⟩
  · intro hr hfind hinst
    rw [fetchConfig_refresh s ctx req now tb hr hauth hfind hinst]
    exact ⟨rfl, rfl, rfl⟩
  · intro ctx2 tb2 req2 now2 hauth2 hstable hinst2
    obtain ⟨hr1, hfind1, hinstEq⟩ := fetchConfig_instance s ctx req now tb hauth
    have hfind1' : findHub (FetchConfig s noFail ctx req now).1.db.hubs req2.stableId =
        some hr1 := by rw [hstable]; exact hfind1
    have hne : (req2.instanceId == hr1.instanceId) = false := by
      rw [hinstEq]; exact hinst2
    rw [fetchConfig_rotate _ ctx2 req2 now2 tb2 hr1 hauth2 hfind1' hne]
    rw [hinstEq]
    exact filter_hub_filter_not _ _

/-- A server for the C3 witness: one service on instance `[2]`, no hubs. -/
def stCfgW : Server :=
  { pubKey := 1, registerToken := "reg",
    db := ⟨[], [⟨[7], [2], [3], "http", "", []⟩], [], [], []⟩, connectedHubs := [] }

/-- Witness for C3: a first `FetchConfig(stable=[1], instance=[2])`
followed by `FetchConfig(stable=[1], instance=[3])` leaves no Service row
with hub id `[2]`. -/
theorem C3_fetchConfig_contract_witness :
    (FetchConfig (FetchConfig stCfgW noFail ctxHubW ⟨[1], [2], ["l1"]⟩ 0).1
        noFail ctxHubW ⟨[1], [3], ["l2"]⟩ 1).1.db.services.filter
      (fun so => so.hubId == [2]) = [] :=
  (C3_fetchConfig_contract stCfgW ctxHubW ⟨[1], [2], ["l1"]⟩ 0 tbHubW rfl).2.2.2
    ctxHubW tbHubW ⟨[1], [3], ["l2"]⟩ 1 rfl rfl (by decide)

/-- `upsertAccount` touches only the `accounts` table. -/
theorem upsertAccount_labelLinks (db : DB) (a : AccountRow) :
    (upsertAccount db a).labelLinks = db.labelLinks := by
  unfold upsertAccount
  split <;> rfl

/-- C6 counterexample: the scenario's first `CreateToken` call succeeds,
but the returned token's body carries the default (internal-service) role
rather than MANAGE, because the handler never assigns `tc.Role`; the
namespace and capability set are as requested. -/
theorem C6_createToken_counterexample :
    (CreateToken stW ctxMgW
        ⟨⟨[2], "org/team/sub"⟩, [⟨.access, "org/team/sub"⟩], none⟩).2 =
      .ok ⟨.internalService, [2], "org/team/sub", [⟨.access, "org/team/sub"⟩], 0⟩ ∧
    TokenRole.internalService ≠ TokenRole.manage :=
  ⟨rfl, by decide⟩

/-- C6 (amended): with a MANAGE caller whose namespace allows the
requested account namespace, if every requested ACCESS capability value is
also allowed then `CreateToken` succeeds and the minted body carries the
requested namespace, capability set and duration, with the default
internal-service role (not MANAGE); if some requested ACCESS capability
names a namespace outside the caller's allowed prefix, the call fails with
invalid-request and changes nothing. -/
theorem C6_createToken (s : Server) (ctx : Ctx) (req : CreateTokenRequest)
    (caller : TokenBody) (hauth : checkMgmtAllowed s ctx = .ok caller)
    (hns : caller.allowAccount req.account.ns = true) :
    ((∀ cb ∈ req.capabilities, cb.capability = .access →
        caller.allowAccount cb.value = true) →
      (CreateToken s ctx req).2 =
        .ok ⟨.internalService, req.account.accountId, req.account.ns, req.capabilities,
          req.validDuration.getD 0⟩ ∧
      (CreateToken s ctx req).1.db = upsertAccount s.db ⟨req.account.key, req.account.ns⟩) ∧
    ((∃ cb ∈ req.capabilities, cb.capability = .access ∧
        caller.allowAccount cb.value = false) →
      CreateToken s ctx req = (s, .error .invalidRequest)) := by
  constructor
  · intro hall
    have hany : req.capabilities.any
        (fun cb => cb.capability == .access && !(caller.allowAccount cb.value)) = false := by
      simp only [List.any_eq_false]
      intro cb hmem
      by_cases hacc : cb.capability = .access
      · simp [hacc, hall cb hmem hacc]
      · simp [hacc]
    constructor <;> simp [CreateToken, hauth, hns, hany, TokenCreator.encode]
  · rintro ⟨cb, hmem, hacc, hallow⟩
    have hany : req.capabilities.any
        (fun cb => cb.capability == .access && !(caller.allowAccount cb.value)) = true := by
      simp only [List.any_eq_true]
      exact ⟨cb, hmem, by simp [hacc, hallow]⟩
    simp [CreateToken, hauth, hns, hany]

/-- Witness for C6: both branches at the spec's concrete scenario. -/
theorem C6_createToken_witness :
    (CreateToken stW ctxMgW
        ⟨⟨[2], "org/team/sub"⟩, [⟨.access, "org/team/sub"⟩], none⟩).1.db =
      upsertAccount stW.db ⟨[2], "org/team/sub"⟩ ∧
    CreateToken stW ctxMgW ⟨⟨[2], "org/team/sub"⟩, [⟨.access, "other/team"⟩], none⟩ =
      (stW, .error .invalidRequest) := by
  constructor
  · exact ((C6_createToken stW ctxMgW
        ⟨⟨[2], "org/team/sub"⟩, [⟨.access, "org/team/sub"⟩], none⟩ tbMgW rfl
        (by decide)).1 (fun cb hmem hacc => by
          have hcb : cb = ⟨.access, "org/team/sub"⟩ := by simpa using hmem
          rw [hcb]
          decide)).2
  · exact (C6_createToken stW ctxMgW
        ⟨⟨[2], "org/team/sub"⟩, [⟨.access, "other/team"⟩], none⟩ tbMgW rfl
        (by decide)).2 ⟨⟨.access, "other/team"⟩, by decide, rfl, by decide⟩

/-- C7 counterexample: with a connected session `h1`, `RemoveLabelLink`
succeeds but leaves the whole server state unchanged: no broadcast delta
reaches the session and no account row is upserted, contrary to the
claim's "for both" phrasing. -/
theorem C7_removeLabelLink_counterexample :
    RemoveLabelLink stW ctxMgW ⟨⟨[2], "org/team"⟩, ["a=1"]⟩ = (stW, .ok ()) ∧
    stW.connectedHubs = [("h1", [])] ∧
    stW.db.accounts = [] :=
  ⟨rfl, rfl, rfl⟩

/-- C7 (amended): with a MANAGE caller allowed on the request namespace,
`AddLabelLink` upserts the account row, inserts the link keyed by the
canonical flattened labels, and broadcasts the new link to every connected
session; `RemoveLabelLink` only deletes the link rows keyed by the account
key and the canonical flattened labels — it upserts no account row and
publishes no broadcast delta. -/
theorem C7_label_links (s : Server) (ctx : Ctx) (caller : TokenBody)
    (hauth : checkMgmtAllowed s ctx = .ok caller) :
    (∀ req : AddLabelLinkRequest, ¬(req.account.ns = "") →
      caller.allowAccount req.account.ns = true →
      (AddLabelLink s ctx req).2 = .ok () ∧
      (AddLabelLink s ctx req).1.db.labelLinks = s.db.labelLinks ++
        [⟨req.account.key, FlattenLabels req.labels, FlattenLabels req.target⟩] ∧
      (AddLabelLink s ctx req).1.db.accounts =
        (upsertAccount s.db ⟨req.account.key, req.account.ns⟩).accounts ∧
      (AddLabelLink s ctx req).1.connectedHubs = s.connectedHubs.map
        (fun p => (p.1, p.2 ++ [⟨[], [⟨req.account, req.labels, req.target⟩]⟩]))) ∧
    (∀ req : RemoveLabelLinkRequest, caller.allowAccount req.account.ns = true →
      (RemoveLabelLink s ctx req).2 = .ok () ∧
      (RemoveLabelLink s ctx req).1.db.labelLinks = s.db.labelLinks.filter
        (fun l => !(l.accountId == req.account.key && l.labels == FlattenLabels req.labels)) ∧
      (RemoveLabelLink s ctx req).1.db.accounts = s.db.accounts ∧
      (RemoveLabelLink s ctx req).1.connectedHubs = s.connectedHubs) := by
  constructor
  · intro req hnz hns
    refine ⟨?_, ?_, ?_, ?_⟩ <;>
      simp [AddLabelLink, hauth, hnz, hns, broadcastActivity, upsertAccount_labelLinks]
  · intro req hns
    refine ⟨?_, ?_, ?_, ?_⟩ <;> simp [RemoveLabelLink, hauth, hns]

/-- Witness for C7 at concrete inputs: the added link is broadcast to the
connected session, while the removal touches no account row. -/
theorem C7_label_links_witness :
    (AddLabelLink stW ctxMgW ⟨⟨[4], "org/team/x"⟩, ["a=1"], ["b=2"]⟩).1.connectedHubs =
      [("h1", [⟨[], [⟨⟨[4], "org/team/x"⟩, ["a=1"], ["b=2"]⟩]⟩])] ∧
    (RemoveLabelLink stW ctxMgW ⟨⟨[2], "org/team"⟩, ["a=1"]⟩).1.db.accounts = [] := by
  constructor
  · rw [((C7_label_links stW ctxMgW tbMgW rfl).1
      ⟨⟨[4], "org/team/x"⟩, ["a=1"], ["b=2"]⟩ (by decide) (by decide)).2.2.2]
    rfl
  · rw [((C7_label_links stW ctxMgW tbMgW rfl).2
      ⟨⟨[2], "org/team"⟩, ["a=1"]⟩ (by decide)).2.2.1]
    rfl

/-- C8 counterexample: starting from an empty `accounts` table,
`AddService` inserts the Service row but upserts no account row — the
accounts table is still empty afterwards, contrary to the claim that the
account named in the request is upserted before the insert. -/
theorem C8_addService_counterexample :
    (AddService stW ctxHubW
        ⟨⟨[2], "org/team"⟩, [5], [8], "http", ["env=prod"]⟩).1.db.accounts = [] ∧
    (AddService stW ctxHubW
        ⟨⟨[2], "org/team"⟩, [5], [8], "http", ["env=prod"]⟩).1.db.services =
      stW.db.services ++ [⟨[8], [5], [2], "http", "", ["env=prod"]⟩] :=
  ⟨rfl, rfl⟩

/-- C8 (amended): with a valid HUB token, `AddService` inserts the Service
row and broadcasts the route delta, leaving the accounts table untouched
(the handler performs no account upsert). -/
theorem C8_addService (s : Server) (ctx : Ctx) (req : ServiceRequest) (tb : TokenBody)
    (hauth : checkFromHub s ctx = .ok tb) :
    (AddService s ctx req).2 = .ok () ∧
    (AddService s ctx req).1.db.services = s.db.services ++
      [⟨req.id, req.hub, req.account.key, req.svcType, "", req.labels⟩] ∧
    (AddService s ctx req).1.db.accounts = s.db.accounts ∧
    (AddService s ctx req).1.connectedHubs = s.connectedHubs.map
      (fun p => (p.1, p.2 ++
        [⟨[⟨req.account, [⟨req.hub, req.id, req.svcType, req.labels⟩]⟩], []⟩])) := by
  refine ⟨?_, ?_, ?_, ?_⟩ <;> simp [AddService, hauth, broadcastActivity]

/-- Witness for C8 at a concrete input. -/
theorem C8_addService_witness :
    (AddService stW ctxHubW
        ⟨⟨[2], "org/team"⟩, [5], [8], "http", ["env=prod"]⟩).2 = .ok () :=
  (C8_addService stW ctxHubW ⟨⟨[2], "org/team"⟩, [5], [8], "http", ["env=prod"]⟩
    tbHubW rfl).1

/-- C9: `RemoveService` is token-independent beyond the HUB role check:
two calls carrying different valid HUB tokens but the same request perform
exactly the same deletion, and the deleted set depends only on the
request's service id — so a HUB token issued for one hub can delete
Service rows registered by any other hub or account. -/
theorem C9_removeService_token_independent (s : Server) (ctx1 ctx2 : Ctx)
    (req : ServiceRequest) (tb1 tb2 : TokenBody)
    (h1 : checkFromHub s ctx1 = .ok tb1) (h2 : checkFromHub s ctx2 = .ok tb2) :
    RemoveService s ctx1 req = RemoveService s ctx2 req ∧
    (RemoveService s ctx1 req).1.db.services =
      s.db.services.filter (fun so => !(so.serviceId == req.id)) ∧
    (RemoveService s ctx1 req).2 = .ok () := by
  refine ⟨?_, ?_, ?_⟩ <;> simp [RemoveService, h1, h2]

/-- A second hub token over a different account and namespace. -/
def tbHub2W : TokenBody := ⟨.hub, [9], "other/ns", [⟨.connect, ""⟩], 9⟩

/-- A context carrying `tbHub2W` signed with key 1. -/
def ctxHub2W : Ctx := ⟨some [.signed tbHub2W 1]⟩

/-- Witness for C9: two different hub tokens delete the same service,
which was registered under account `[3]` on another hub. -/
theorem C9_removeService_token_independent_witness :
    RemoveService stW ctxHubW ⟨⟨[2], "org/team"⟩, [5], [7], "http", []⟩ =
      RemoveService stW ctxHub2W ⟨⟨[2], "org/team"⟩, [5], [7], "http", []⟩ ∧
    (RemoveService stW ctxHubW ⟨⟨[2], "org/team"⟩, [5], [7], "http", []⟩).1.db.services =
      [] := by
  constructor
  · exact (C9_removeService_token_independent stW ctxHubW ctxHub2W
      ⟨⟨[2], "org/team"⟩, [5], [7], "http", []⟩ tbHubW tbHub2W rfl rfl).1
  · rw [(C9_removeService_token_independent stW ctxHubW ctxHub2W
      ⟨⟨[2], "org/team"⟩, [5], [7], "http", []⟩ tbHubW tbHub2W rfl rfl).2.1]
    rfl

/-- C10: when `AddLabelLink` receives an empty account namespace, the
caller token's own namespace is substituted before the `AllowAccount`
check; that check then compares the caller's namespace with itself and
cannot fail, and the link is recorded under the caller's namespace. -/
theorem C10_addLabelLink_empty_namespace (s : Server) (ctx : Ctx)
    (req : AddLabelLinkRequest) (caller : TokenBody)
    (hauth : checkMgmtAllowed s ctx = .ok caller) (hns : req.account.ns = "") :
    (AddLabelLink s ctx req).2 = .ok () ∧
    (AddLabelLink s ctx req).1.db.labelLinks = s.db.labelLinks ++
      [⟨req.account.key, FlattenLabels req.labels, FlattenLabels req.target⟩] ∧
    (AddLabelLink s ctx req).1.db.accounts =
      (upsertAccount s.db ⟨req.account.key, caller.ns⟩).accounts ∧
    (AddLabelLink s ctx req).1.connectedHubs = s.connectedHubs.map
      (fun p => (p.1, p.2 ++
        [⟨[], [⟨⟨req.account.accountId, caller.ns⟩, req.labels, req.target⟩]⟩])) := by
  have hallow : caller.allowAccount caller.ns = true := by
    simp [TokenBody.allowAccount, strIsPrefixOf_self]
  refine ⟨?_, ?_, ?_, ?_⟩ <;>
    simp [AddLabelLink, hauth, hns, hallow, broadcastActivity, upsertAccount_labelLinks,
      TokenBody.account, PbAccount.key]

/-- Witness for C10: an empty request namespace is replaced by the
caller's `org/team`, the check passes and the account row carries the
caller's namespace. -/
theorem C10_addLabelLink_empty_namespace_witness :
    (AddLabelLink stW ctxMgW ⟨⟨[4], ""⟩, ["a=1"], ["b=2"]⟩).2 = .ok () ∧
    (AddLabelLink stW ctxMgW ⟨⟨[4], ""⟩, ["a=1"], ["b=2"]⟩).1.db.accounts =
      [⟨[4], "org/team"⟩] := by
  have h := C10_addLabelLink_empty_namespace stW ctxMgW ⟨⟨[4], ""⟩, ["a=1"], ["b=2"]⟩
    tbMgW rfl rfl
  refine ⟨h.1, ?_⟩
  rw [h.2.2.1]
  rfl

end Control
